import Mathlib

/-!
# Verification of the fleet-metrics concurrent device store

Shallow embedding of `store/store.go` (package `store`) of the
fleet-metrics repository, together with proofs of the specification
claims about it.

Modelling conventions:

* A `time.Time` instant is modelled as an integer number of nanoseconds
  counted from Go's zero time (`time.Time{}`, 0001-01-01T00:00:00Z).
  Under this model `t.IsZero()` is `t = 0`, `a.Before b` is `a < b`,
  `a.After b` is `a > b`, and `a.Sub b` is `a - b` nanoseconds.
* Go `int64` quantities (upload durations, `time.Duration`) are values
  of `Int`; where the source can overflow they are wrapped explicitly:
  the upload sum accumulates through `add64` (int64 addition with
  wraparound) and `time.Time.Sub` saturates at the int64 bounds
  (`goSub`).  Go's `/` and `%` on int64 are `Int.tdiv` and `Int.tmod`.
* `float64` values are represented exactly as mantissa-exponent pairs
  `m * 2^e` (`F64`), and `Duration.Minutes()` is modelled operation by
  operation (`goMinutesF`): truncated int64 division and remainder,
  then each float64 operation rounded to 53 significant bits with
  round to nearest, ties to even (`roundRatio`); all values involved
  lie well inside the normal double range, so neither subnormals nor
  overflow arise.  Conversion of an integer below `2^53` to float64 is
  exact, so `float64(d / Minute)`, `float64(d % Minute)` and
  `float64(int(minutesDiff))` need no rounding step, and the float
  comparison `minutesDiff > 0` is the sign of the mantissa.  The final
  count-over-minutes division, multiplication by 100 and comparison
  with 100 are written exactly: their float64 rounding perturbs the
  result by under one part in `2^52` and cannot change the comparison,
  because crossing 100 exactly requires count = minutes while the next
  representable ratio is at least `1/2^28` away.
* Go's `int(x)` conversion of a float64 is truncation toward zero
  (`F64.trunc`).
* The process runs the store operations one at a time: every Go store
  method body executes under the per-device mutex (`mu.Lock` /
  `mu.RLock`) and the directory step uses `sync.Map.LoadOrStore`, so
  each operation is atomic and a concurrent execution is an arbitrary
  interleaving, i.e. an arbitrary sequential order of the same calls.
  The store is therefore modelled as a value of type `Store` transformed
  by one operation at a time.
-/

namespace FleetMetrics

/-- Struct `DeviceData` (store.go lines 10–16): the per-device record.
`Heartbeats` is the Go `map[time.Time]bool` used as a set of instants,
`UploadTimes` the `[]int64` slice of upload durations, and
`FirstHeartbeat`/`LastHeartbeat` the two `time.Time` bounds
(zero-valued until set). -/
structure DeviceData where
  Heartbeats : Finset Int
  UploadTimes : List Int
  FirstHeartbeat : Int
  LastHeartbeat : Int
deriving DecidableEq

/-- The Go zero value `&DeviceData{}` stored by `getOrCreateDevice`:
nil heartbeat map (empty set), nil slice, zero times. -/
def emptyDevice : DeviceData :=
  { Heartbeats := ∅, UploadTimes := [], FirstHeartbeat := 0, LastHeartbeat := 0 }

/-- Body of `RecordHeartbeat` under the lock (store.go lines 40–50):
insert the timestamp into the heartbeat set, then update each bound if
it `IsZero` or the timestamp lies outside it. -/
def addHeartbeat (d : DeviceData) (sentAt : Int) : DeviceData :=
  let d1 := { d with Heartbeats := insert sentAt d.Heartbeats }
  let d2 := if d1.FirstHeartbeat = 0 ∨ sentAt < d1.FirstHeartbeat then
      { d1 with FirstHeartbeat := sentAt } else d1
  if d2.LastHeartbeat = 0 ∨ sentAt > d2.LastHeartbeat then
      { d2 with LastHeartbeat := sentAt } else d2

/-- Body of `RecordUpload` under the lock (store.go line 59):
append the duration to the slice; the `sentAt` argument is not used. -/
def addUpload (d : DeviceData) (uploadTime : Int) : DeviceData :=
  { d with UploadTimes := d.UploadTimes ++ [uploadTime] }

/-- Struct `ServerStore` (store.go lines 19–21): the `sync.Map` directory from
device ID to its `DeviceData`, modelled as a partial map. -/
def Store : Type := String → Option DeviceData

/-- Constructor `NewStore` (store.go lines 24–26): the empty directory. -/
def NewStore : Store := fun _ => none

/-- Point update of the directory map. -/
def updateStore (s : Store) (deviceID : String) (d : DeviceData) : Store :=
  fun id => if id = deviceID then some d else s id

/-- Method `getOrCreateDevice` (store.go lines 29–32): `sync.Map.LoadOrStore` —
return the existing record if present, otherwise store and return a
fresh zero-valued record. -/
def getOrCreateDevice (s : Store) (deviceID : String) : DeviceData × Store :=
  match s deviceID with
  | some d => (d, s)
  | none => (emptyDevice, updateStore s deviceID emptyDevice)

/-- Method `RecordHeartbeat` (store.go lines 35–51): locate or create the
device record, then run `addHeartbeat` on it under its lock. -/
def RecordHeartbeat (s : Store) (deviceID : String) (sentAt : Int) : Store :=
  let p := getOrCreateDevice s deviceID
  updateStore p.2 deviceID (addHeartbeat p.1 sentAt)

/-- Method `RecordUpload` (store.go lines 54–60): locate or create the device
record, then run `addUpload` on it under its lock.  The `sentAt`
parameter is accepted but never read by the body. -/
def RecordUpload (s : Store) (deviceID : String) (sentAt : Int)
    (uploadTime : Int) : Store :=
  let p := getOrCreateDevice s deviceID
  updateStore p.2 deviceID (addUpload p.1 uploadTime)

/-- Modelled from the spec: `RegisterDevice` is called by the startup
whitelist loader and by the tests but its body is not among the source
files; per spec §4.2 it "ensures a DeviceState exists for `id` with
empty history" and is idempotent, i.e. it performs the lookup-or-create
step and discards the returned record. -/
def RegisterDevice (s : Store) (deviceID : String) : Store :=
  (getOrCreateDevice s deviceID).2

/-- The two error values `GetStats` can produce (store.go lines 67, 75):
`fmt.Errorf("device not found")` and
`fmt.Errorf("no heartbeats found for device")`. -/
inductive StatsError where
  | deviceNotFound
  | noHeartbeats
deriving DecidableEq, Repr

/-- Nanoseconds per minute: `time.Minute` as an int64 duration. -/
def nsPerMinute : Int := 60000000000

/-- A float64 value as the exact dyadic number `m * 2^e` it denotes. -/
structure F64 where
  m : Int
  e : Int

/-- Floor of the base-two logarithm, by structural recursion on a fuel
bound (any fuel at least the bit length computes it; the value itself
is more than enough). -/
def log2Fuel : ℕ → ℕ → ℕ
  | 0, _ => 0
  | fuel + 1, n => if 2 ≤ n then log2Fuel fuel (n / 2) + 1 else 0

/-- Floor of the base-two logarithm of a positive natural (0 at 0). -/
def natLog2 (n : ℕ) : ℕ := log2Fuel n n

/-- Whether `2^e ≤ p / q`, for positive `p` and `q`. -/
def pow2LeRatio (e p q : Int) : Bool :=
  if 0 ≤ e then decide (q * 2 ^ e.toNat ≤ p) else decide (q ≤ p * 2 ^ (-e).toNat)

/-- The binary exponent of the positive ratio `p / q`: the unique `e`
with `2^e ≤ p/q < 2^(e+1)`.  The bit-length estimate is off by at
most one, so two comparisons correct it. -/
def ratioLog2 (p q : Int) : Int :=
  let e0 : Int := (natLog2 p.natAbs : Int) - (natLog2 q.natAbs : Int)
  if pow2LeRatio (e0 + 1) p q then e0 + 1
  else if pow2LeRatio e0 p q then e0
  else e0 - 1

/-- Round the ratio `p / q` (`p ≥ 0`, `q > 0`) to 53 significant bits
with round to nearest, ties to even: scale so the quotient lies in
`[2^52, 2^53)`, compare twice the remainder against the divisor, and
keep the scaling exponent.  This is IEEE-754 double rounding for
nonnegative values in the normal range. -/
def roundRatioPos (p q : Int) : F64 :=
  if p = 0 then ⟨0, 0⟩
  else
    let e : Int := ratioLog2 p q - 52
    let np : Int := if 0 ≤ e then p else p * 2 ^ (-e).toNat
    let nq : Int := if 0 ≤ e then q * 2 ^ e.toNat else q
    let m0 : Int := np / nq
    let r : Int := np % nq
    let m : Int :=
      if 2 * r < nq then m0
      else if nq < 2 * r then m0 + 1
      else if m0 % 2 = 0 then m0 else m0 + 1
    ⟨m, e⟩

/-- Round `p / q` (`q > 0`) to float64, handling the sign. -/
def roundRatio (p q : Int) : F64 :=
  if 0 ≤ p then roundRatioPos p q
  else ⟨-(roundRatioPos (-p) q).m, (roundRatioPos (-p) q).e⟩

/-- The float64 sum of an exactly-represented integer and a float
value: form the exact dyadic sum and round once, as IEEE addition
rounds the exact result. -/
def addIntF64 (a : Int) (x : F64) : F64 :=
  if 0 ≤ x.e then roundRatio (a + x.m * 2 ^ x.e.toNat) 1
  else roundRatio (a * 2 ^ (-x.e).toNat + x.m) (2 ^ (-x.e).toNat)

/-- Go's `int(x)` conversion of a `float64`: truncation toward zero
of the dyadic value. -/
def F64.trunc (x : F64) : Int :=
  if 0 ≤ x.e then x.m * 2 ^ x.e.toNat else x.m.tdiv (2 ^ (-x.e).toNat)

/-- Go's `time.Time.Sub`: the int64 nanosecond difference, saturating
at the int64 bounds ("the maximum (or minimum) duration will be
returned" on overflow). -/
def goSub (t u : Int) : Int :=
  if t - u < -9223372036854775808 then -9223372036854775808
  else if 9223372036854775807 < t - u then 9223372036854775807
  else t - u

/-- Go's `time.Duration.Minutes()` on a duration of `d` nanoseconds:
`float64(d / Minute) + float64(d % Minute) / (60 * 1e9)` with `/` and
`%` the truncating int64 operations.  Both integer-to-float
conversions are exact (`|d / Minute|` and `|d % Minute|` are far below
`2^53`), the constant `60 * 1e9` is exactly representable, the
division rounds once and the addition rounds once. -/
def goMinutesF (d : Int) : F64 :=
  addIntF64 (d.tdiv nsPerMinute) (roundRatio (d.tmod nsPerMinute) nsPerMinute)

/-- Uptime computation of `GetStats` (store.go lines 78–96): default
100; `minutesDiff` is the float64 `Sub(...).Minutes()` value; if it is
positive (equivalently, its mantissa is) and its truncation to a
whole-minute count is positive, uptime is `count / numMinutes * 100`
capped at 100.  The conversion `float64(int(minutesDiff))` is exact
(the count is far below `2^53`), and the final division,
multiplication and comparisons are written exactly — their float64
rounding is below one part in `2^52` and cannot change a branch. -/
def computeUptime (d : DeviceData) : ℚ :=
  let minutesDiff : F64 := goMinutesF (goSub d.LastHeartbeat d.FirstHeartbeat)
  if 0 < minutesDiff.m then
    let numMinutes : Int := minutesDiff.trunc
    if 0 < numMinutes then
      let uptime : ℚ := ((d.Heartbeats.card : ℚ) / (numMinutes : ℚ)) * 100
      if 100 < uptime then 100 else uptime
    else 100
  else 100

/-- Go int64 wraparound into `[-2^63, 2^63)`. -/
def wrap64 (n : Int) : Int :=
  (n + 9223372036854775808) % 18446744073709551616 - 9223372036854775808

/-- Go's int64 `+=`: two's-complement addition with wraparound. -/
def add64 (a b : Int) : Int := wrap64 (a + b)

/-- Average-upload computation of `GetStats` (store.go lines 99–108):
zero-valued `time.Duration` when no uploads, otherwise the int64 sum —
accumulated with int64 wraparound — divided by the count with Go's
truncating integer division (the quotient of an in-range sum by a
positive count is always in range, so no further wrap occurs). -/
def computeAvgUpload (l : List Int) : Int :=
  if 0 < l.length then (l.foldl add64 0).tdiv (l.length : Int) else 0

/-- Method `GetStats` (store.go lines 64–111) in state-passing form: the pair
of the Go return value and the directory map after the call.  The body
only performs `sync.Map.Load` and field reads under `mu.RLock`, so the
returned map is the input map. -/
def GetStatsSt (s : Store) (deviceID : String) :
    Except StatsError (ℚ × Int) × Store :=
  match s deviceID with
  | none => (.error .deviceNotFound, s)
  | some device =>
    if device.Heartbeats.card = 0 then (.error .noHeartbeats, s)
    else (.ok (computeUptime device, computeAvgUpload device.UploadTimes), s)

/-- The value returned by `GetStats`. -/
def GetStats (s : Store) (deviceID : String) : Except StatsError (ℚ × Int) :=
  (GetStatsSt s deviceID).1

/-- Uptime as worded by the specification (§4.1): `elapsedMinutes` is
the whole-minute value of `lastHeartbeat - firstHeartbeat` with
fractional minutes truncated toward zero; exactly 100 when it is zero,
otherwise `(distinctHeartbeatCount / elapsedMinutes) * 100` clamped to
a maximum of 100. -/
def uptimeSpec (d : DeviceData) : ℚ :=
  let elapsedMinutes : Int :=
    (d.LastHeartbeat - d.FirstHeartbeat).tdiv nsPerMinute
  if elapsedMinutes = 0 then 100
  else min 100 (((d.Heartbeats.card : ℚ) / (elapsedMinutes : ℚ)) * 100)

/-- Average upload as worded by the specification (§4.1): sum of all
recorded duration values divided by their count with the remainder
truncated; the zero value when the sequence is empty. -/
def avgUploadSpec (l : List Int) : Int :=
  if l.length = 0 then 0 else (l.sum).tdiv (l.length : Int)

/-- A float value with positive truncation has a positive mantissa. -/
theorem F64.m_pos_of_trunc_pos (x : F64) (h : 0 < x.trunc) : 0 < x.m := by
  by_contra hm
  push_neg at hm
  unfold F64.trunc at h
  rcases le_or_lt 0 x.e with he | he
  · rw [if_pos he] at h
    have hle : x.m * 2 ^ x.e.toNat ≤ 0 :=
      mul_nonpos_iff.mpr (Or.inr ⟨hm, by positivity⟩)
    omega
  · rw [if_neg (not_le.mpr he)] at h
    have h2 : 0 ≤ (-x.m).tdiv (2 ^ (-x.e).toNat) :=
      Int.tdiv_nonneg (by omega) (by positivity)
    rw [Int.neg_tdiv] at h2
    omega

/-- With the bounds ordered and the float64 minute computation
truncating to the same whole-minute count as exact integer division of
the nanosecond span, the code's uptime computation equals the spec's
formula. -/
theorem computeUptime_eq_uptimeSpec (d : DeviceData)
    (hb : d.FirstHeartbeat ≤ d.LastHeartbeat)
    (hagree : (goMinutesF (goSub d.LastHeartbeat d.FirstHeartbeat)).trunc
      = (d.LastHeartbeat - d.FirstHeartbeat).tdiv nsPerMinute) :
    computeUptime d = uptimeSpec d := by
  unfold computeUptime uptimeSpec
  dsimp only
  have hm : (0 : Int) < nsPerMinute := by norm_num [nsPerMinute]
  have he0 : 0 ≤ (d.LastHeartbeat - d.FirstHeartbeat).tdiv nsPerMinute :=
    Int.tdiv_nonneg (by omega) hm.le
  rcases eq_or_ne ((d.LastHeartbeat - d.FirstHeartbeat).tdiv nsPerMinute) 0 with he | he
  · rw [he, if_pos rfl]
    by_cases hpos : 0 < (goMinutesF (goSub d.LastHeartbeat d.FirstHeartbeat)).m
    · rw [if_pos hpos, hagree, he]
      norm_num
    · rw [if_neg hpos]
  · have he1 : 1 ≤ (d.LastHeartbeat - d.FirstHeartbeat).tdiv nsPerMinute := by omega
    have hpos : 0 < (goMinutesF (goSub d.LastHeartbeat d.FirstHeartbeat)).m :=
      F64.m_pos_of_trunc_pos _ (by omega)
    rw [if_neg he, if_pos hpos, hagree,
      if_pos (by omega : 0 < (d.LastHeartbeat - d.FirstHeartbeat).tdiv nsPerMinute)]
    rcases le_or_lt (((d.Heartbeats.card : ℚ) /
        (((d.LastHeartbeat - d.FirstHeartbeat).tdiv nsPerMinute : Int) : ℚ)) * 100) 100
      with hcl | hcl
    · rw [if_neg (not_lt.mpr hcl), min_eq_right hcl]
    · rw [if_pos hcl, min_eq_left hcl.le]

/-- Reduction of `GetStats` on a present device with heartbeats. -/
theorem getStats_some (s : Store) (deviceID : String) (d : DeviceData)
    (hs : s deviceID = some d) (hcard : d.Heartbeats.card ≠ 0) :
    GetStats s deviceID = .ok (computeUptime d, computeAvgUpload d.UploadTimes) := by
  unfold GetStats GetStatsSt
  rw [hs]
  simp [hcard]

/-- Wraparound is the identity on in-range values. -/
theorem wrap64_eq_self (n : Int) (h1 : -9223372036854775808 ≤ n)
    (h2 : n < 9223372036854775808) : wrap64 n = n := by
  unfold wrap64
  omega

/-- When every running sum stays inside the int64 range, the wrapping
accumulation computes the exact sum. -/
theorem foldl_add64_eq_sum (l : List Int) :
    ∀ acc : Int,
      (∀ n, n ≤ l.length → -9223372036854775808 ≤ acc + (l.take n).sum ∧
        acc + (l.take n).sum < 9223372036854775808) →
      l.foldl add64 acc = acc + l.sum := by
  induction l with
  | nil =>
    intro acc _
    simp
  | cons a l ih =>
    intro acc h
    have h1 := h 1 (by simp)
    simp only [List.take_succ_cons, List.take_zero, List.sum_cons, List.sum_nil,
      add_zero] at h1
    rw [List.foldl_cons]
    have hadd : add64 acc a = acc + a := by
      unfold add64
      exact wrap64_eq_self _ h1.1 h1.2
    rw [hadd, ih (acc + a) ?_]
    · rw [List.sum_cons]
      ring
    · intro n hn
      have h2 := h (n + 1) (by simpa using Nat.succ_le_succ hn)
      simp only [List.take_succ_cons, List.sum_cons] at h2
      constructor
      · have := h2.1
        omega
      · have := h2.2
        omega

/-- Provided no running sum wraps, the code's average-upload
computation and the spec's wording of it agree. -/
theorem computeAvgUpload_eq_spec (l : List Int)
    (hrange : ∀ n, n ≤ l.length → -9223372036854775808 ≤ (l.take n).sum ∧
      (l.take n).sum < 9223372036854775808) :
    computeAvgUpload l = avgUploadSpec l := by
  unfold computeAvgUpload avgUploadSpec
  have hsum : l.foldl add64 0 = l.sum := by
    have hfold := foldl_add64_eq_sum l 0 ?_
    · simpa using hfold
    · intro n hn
      have := hrange n hn
      omega
  rcases Nat.eq_zero_or_pos l.length with h | h
  · rw [if_neg (by omega), if_pos h]
  · rw [if_pos h, if_neg (by omega), hsum]

/-- Sample device record: heartbeats one and five minutes after the
epoch, uploads of five and ten seconds (in nanoseconds). -/
def sampleDev : DeviceData :=
  { Heartbeats := {60000000000, 300000000000},
    UploadTimes := [5000000000, 10000000000],
    FirstHeartbeat := 60000000000,
    LastHeartbeat := 300000000000 }

/-- Sample one-device store holding `sampleDev` under ID "cam-1". -/
def sampleStore : Store := updateStore NewStore "cam-1" sampleDev

/-- Device state falsifying the exact-truncation uptime claim: two
heartbeats spanning one nanosecond less than 524288 minutes.  float64
`Minutes()` rounds the span up to exactly 524288.0, so the program
truncates to 524288 where exact arithmetic truncates to 524287. -/
def cexUptimeDev : DeviceData :=
  { Heartbeats := {60000000000, 31457339999999999},
    UploadTimes := [],
    FirstHeartbeat := 60000000000,
    LastHeartbeat := 31457339999999999 }

/-- One-device store holding `cexUptimeDev`. -/
def cexUptimeStore : Store := updateStore NewStore "cam-1" cexUptimeDev

/-- C1 as stated is false on the code: at a heartbeat span one
nanosecond short of 524288 minutes, `Sub(...).Minutes()` computed in
float64 rounds up to exactly 524288.0, so the program returns
`(2 / 524288) * 100 = 25/65536`, while the claim's truncated
`elapsedMinutes` is 524287, which demands `200/524287`. -/
theorem C1_counterexample :
    GetStats cexUptimeStore "cam-1" = .ok (25 / 65536, 0) ∧
    uptimeSpec cexUptimeDev = 200 / 524287 ∧
    (25 / 65536 : ℚ) ≠ 200 / 524287 := by
  refine ⟨?_, ?_, by norm_num⟩
  · rw [getStats_some cexUptimeStore "cam-1" cexUptimeDev (by decide) (by decide)]
    have ha : computeAvgUpload cexUptimeDev.UploadTimes = 0 := by decide
    have hm : 0 < (goMinutesF (goSub cexUptimeDev.LastHeartbeat
        cexUptimeDev.FirstHeartbeat)).m := by decide
    have htr : (goMinutesF (goSub cexUptimeDev.LastHeartbeat
        cexUptimeDev.FirstHeartbeat)).trunc = 524288 := by decide
    have hc : cexUptimeDev.Heartbeats.card = 2 := by decide
    have hu : computeUptime cexUptimeDev = 25 / 65536 := by
      unfold computeUptime
      dsimp only
      rw [if_pos hm, htr, hc]
      norm_num
    rw [hu, ha]
  · have ht : (cexUptimeDev.LastHeartbeat - cexUptimeDev.FirstHeartbeat).tdiv nsPerMinute
        = 524287 := by decide
    have hc : cexUptimeDev.Heartbeats.card = 2 := by decide
    unfold uptimeSpec
    dsimp only
    rw [ht, hc]
    norm_num [min_def]

/-- C1 amended: for every device whose state holds at least one
heartbeat (its stored bounds being ordered, as in every state the
program reaches), and whose span is such that the float64 computation
`int(Sub(...).Minutes())` truncates to the same whole-minute count as
exact integer division of the nanosecond span — true away from the
rounding window just below whole-minute boundaries that opens once the
span reaches the order of `2^19` minutes — `GetStats` returns the
uptime prescribed by the specification: with `elapsedMinutes` that
whole-minute value, the uptime is exactly 100 when `elapsedMinutes =
0` and otherwise `(distinct count / elapsedMinutes) * 100` clamped to
at most 100. -/
theorem C1_getStats_uptime (s : Store) (deviceID : String) (d : DeviceData)
    (hs : s deviceID = some d) (hcard : d.Heartbeats.card ≠ 0)
    (hb : d.FirstHeartbeat ≤ d.LastHeartbeat)
    (hagree : (goMinutesF (goSub d.LastHeartbeat d.FirstHeartbeat)).trunc
      = (d.LastHeartbeat - d.FirstHeartbeat).tdiv nsPerMinute) :
    GetStats s deviceID = .ok (uptimeSpec d, computeAvgUpload d.UploadTimes) := by
  rw [getStats_some s deviceID d hs hcard, computeUptime_eq_uptimeSpec d hb hagree]

/-- Witness for C1: two heartbeats four whole minutes apart (where the
float64 minute value is exact) give uptime `(2 / 4) * 100 = 50`. -/
theorem C1_getStats_uptime_witness :
    GetStats sampleStore "cam-1" = .ok (50, 7500000000) := by
  rw [C1_getStats_uptime sampleStore "cam-1" sampleDev (by decide) (by decide)
    (by decide) (by decide)]
  have ht : (sampleDev.LastHeartbeat - sampleDev.FirstHeartbeat).tdiv nsPerMinute = 4 := by
    decide
  have hc : sampleDev.Heartbeats.card = 2 := by decide
  have h2 : computeAvgUpload sampleDev.UploadTimes = 7500000000 := by decide
  have h1 : uptimeSpec sampleDev = 50 := by
    unfold uptimeSpec
    dsimp only
    rw [ht, hc]
    norm_num [min_def]
  rw [h1, h2]

/-- C2: `GetStats` fails with the device-not-found error exactly when
no record exists for the ID, fails with the no-heartbeats error exactly
when a record exists but holds zero heartbeats, and succeeds in every
other case; `RecordHeartbeat` and `RecordUpload` are total and lazily
create the device record for any ID, timestamp and duration. -/
theorem C2_errors_and_totality (s : Store) (deviceID : String) :
    (GetStats s deviceID = .error .deviceNotFound ↔ s deviceID = none) ∧
    (GetStats s deviceID = .error .noHeartbeats ↔
      ∃ d, s deviceID = some d ∧ d.Heartbeats = ∅) ∧
    (∀ d, s deviceID = some d → d.Heartbeats ≠ ∅ →
      ∃ r, GetStats s deviceID = .ok r) ∧
    (∀ sentAt, ∃ d, RecordHeartbeat s deviceID sentAt deviceID = some d) ∧
    (∀ sentAt uploadTime,
      ∃ d, RecordUpload s deviceID sentAt uploadTime deviceID = some d) := by
  refine ⟨?_, ?_, ?_, ?_, ?_⟩
  · unfold GetStats GetStatsSt
    cases hs : s deviceID with
    | none => simp
    | some d =>
      simp only [hs]
      split <;> simp
  · unfold GetStats GetStatsSt
    cases hs : s deviceID with
    | none => simp
    | some d =>
      simp only [hs]
      rcases eq_or_ne d.Heartbeats.card 0 with hc | hc
      · rw [if_pos hc]
        simp [Finset.card_eq_zero.mp hc]
      · rw [if_neg hc]
        simp only [reduceCtorEq, false_iff, not_exists, not_and]
        intro d' hd'
        cases hd'
        exact fun h => hc (by simp [h])
  · intro d hs hne
    refine ⟨(computeUptime d, computeAvgUpload d.UploadTimes), ?_⟩
    exact getStats_some s deviceID d hs (by simpa [Finset.card_eq_zero] using hne)
  · intro sentAt
    refine ⟨addHeartbeat (getOrCreateDevice s deviceID).1 sentAt, ?_⟩
    unfold RecordHeartbeat updateStore
    simp
  · intro sentAt uploadTime
    refine ⟨addUpload (getOrCreateDevice s deviceID).1 uploadTime, ?_⟩
    unfold RecordUpload updateStore
    simp

/-- Witness for C2 at the empty store and a concrete ID. -/
theorem C2_errors_and_totality_witness :
    (GetStats NewStore "cam-7" = .error .deviceNotFound ↔ NewStore "cam-7" = none) ∧
    (GetStats NewStore "cam-7" = .error .noHeartbeats ↔
      ∃ d, NewStore "cam-7" = some d ∧ d.Heartbeats = ∅) ∧
    (∀ d, NewStore "cam-7" = some d → d.Heartbeats ≠ ∅ →
      ∃ r, GetStats NewStore "cam-7" = .ok r) ∧
    (∀ sentAt, ∃ d, RecordHeartbeat NewStore "cam-7" sentAt "cam-7" = some d) ∧
    (∀ sentAt uploadTime,
      ∃ d, RecordUpload NewStore "cam-7" sentAt uploadTime "cam-7" = some d) :=
  C2_errors_and_totality NewStore "cam-7"

/-- Store falsifying the mathematical-sum reading of C3: one heartbeat
and two uploads of `2^62` nanoseconds each.  The program's int64
running sum wraps to `-2^63`, so it reports an average of `-2^62`
where the truncated quotient of the mathematical sum is `+2^62`. -/
def cexUploadStore : Store :=
  RecordUpload (RecordUpload (RecordHeartbeat NewStore "cam-1" 60000000000)
    "cam-1" 0 4611686018427387904) "cam-1" 0 4611686018427387904

/-- C3 as stated is false on the code: after recording upload durations
`2^62` and `2^62`, the program returns average `-2^62` (the int64 sum
wrapped to `-2^63`, divided by 2), while the truncated quotient of the
mathematical sum of the recorded values is `+2^62`. -/
theorem C3_counterexample :
    (GetStats cexUploadStore "cam-1").toOption.map Prod.snd
      = some (-4611686018427387904) ∧
    avgUploadSpec [4611686018427387904, 4611686018427387904]
      = 4611686018427387904 ∧
    (-4611686018427387904 : Int) ≠ 4611686018427387904 := by
  refine ⟨by decide, by decide, by decide⟩

/-- C3 amended: whenever `GetStats` succeeds and every running sum of
the recorded durations fits in int64 (no wraparound occurs), the
returned average upload duration is the truncated integer quotient of
the sum of all recorded duration values by their count, in the same
integer time units; the zero value (not an error) when no uploads were
recorded. -/
theorem C3_getStats_avgUpload (s : Store) (deviceID : String) (d : DeviceData)
    (hs : s deviceID = some d) (hcard : d.Heartbeats.card ≠ 0)
    (hrange : ∀ n < d.UploadTimes.length + 1,
      -9223372036854775808 ≤ (d.UploadTimes.take n).sum ∧
        (d.UploadTimes.take n).sum < 9223372036854775808) :
    GetStats s deviceID = .ok (computeUptime d, avgUploadSpec d.UploadTimes) := by
  rw [getStats_some s deviceID d hs hcard,
    computeAvgUpload_eq_spec d.UploadTimes (fun n hn => hrange n (by omega))]

/-- Witness for C3: uploads of 5s and 10s (whose running sums are far
inside int64) average to 7.5s, reported in nanoseconds with the
remainder truncated. -/
theorem C3_getStats_avgUpload_witness :
    GetStats sampleStore "cam-1" =
      .ok (computeUptime sampleDev, (7500000000 : Int)) := by
  rw [C3_getStats_avgUpload sampleStore "cam-1" sampleDev (by decide) (by decide)
    (by decide)]
  have h2 : avgUploadSpec sampleDev.UploadTimes = 7500000000 := by decide
  rw [h2]

/-- Reading the directory at the key just written. -/
theorem updateStore_self (s : Store) (deviceID : String) (d : DeviceData) :
    updateStore s deviceID d deviceID = some d := by
  unfold updateStore
  simp

/-- Reading the directory at any other key. -/
theorem updateStore_other (s : Store) (deviceID x : String) (d : DeviceData)
    (h : x ≠ deviceID) : updateStore s deviceID d x = s x := by
  unfold updateStore
  simp [h]

/-- The lookup-or-create step returns an existing record untouched,
with the directory unchanged. -/
theorem getOrCreateDevice_some (s : Store) (deviceID : String) (d : DeviceData)
    (h : s deviceID = some d) : getOrCreateDevice s deviceID = (d, s) := by
  unfold getOrCreateDevice
  rw [h]

/-- The lookup-or-create step on an absent key inserts the zero-valued
record. -/
theorem getOrCreateDevice_none (s : Store) (deviceID : String)
    (h : s deviceID = none) :
    getOrCreateDevice s deviceID = (emptyDevice, updateStore s deviceID emptyDevice) := by
  unfold getOrCreateDevice
  rw [h]

/-- The lookup-or-create step never touches other keys. -/
theorem getOrCreateDevice_snd_other (s : Store) (deviceID x : String)
    (h : x ≠ deviceID) : (getOrCreateDevice s deviceID).2 x = s x := by
  unfold getOrCreateDevice
  cases hs : s deviceID with
  | none => exact updateStore_other s deviceID x emptyDevice h
  | some d => rfl

/-- The record stored for the addressed device after `RecordHeartbeat`. -/
theorem recordHeartbeat_self (s : Store) (deviceID : String) (sentAt : Int) :
    RecordHeartbeat s deviceID sentAt deviceID
      = some (addHeartbeat (getOrCreateDevice s deviceID).1 sentAt) := by
  unfold RecordHeartbeat
  exact updateStore_self _ _ _

/-- Other keys after `RecordHeartbeat`. -/
theorem recordHeartbeat_other (s : Store) (deviceID x : String) (sentAt : Int)
    (h : x ≠ deviceID) : RecordHeartbeat s deviceID sentAt x = s x := by
  unfold RecordHeartbeat
  rw [updateStore_other _ _ _ _ h]
  exact getOrCreateDevice_snd_other s deviceID x h

/-- The record stored for the addressed device after `RecordUpload`. -/
theorem recordUpload_self (s : Store) (deviceID : String) (sentAt uploadTime : Int) :
    RecordUpload s deviceID sentAt uploadTime deviceID
      = some (addUpload (getOrCreateDevice s deviceID).1 uploadTime) := by
  unfold RecordUpload
  exact updateStore_self _ _ _

/-- Other keys after `RecordUpload`. -/
theorem recordUpload_other (s : Store) (deviceID x : String) (sentAt uploadTime : Int)
    (h : x ≠ deviceID) : RecordUpload s deviceID sentAt uploadTime x = s x := by
  unfold RecordUpload
  rw [updateStore_other _ _ _ _ h]
  exact getOrCreateDevice_snd_other s deviceID x h

/-- Adding the same timestamp a second time changes nothing: the set
insert is absorbed and both bound updates see the same conditions
resolve to the value already stored. -/
theorem addHeartbeat_idem (d : DeviceData) (sentAt : Int) :
    addHeartbeat (addHeartbeat d sentAt) sentAt = addHeartbeat d sentAt := by
  unfold addHeartbeat
  dsimp only
  split_ifs <;> simp_all [Finset.insert_idem]

/-- Recording the same heartbeat twice leaves the whole store equal to
recording it once. -/
theorem recordHeartbeat_idem (s : Store) (deviceID : String) (sentAt : Int) :
    RecordHeartbeat (RecordHeartbeat s deviceID sentAt) deviceID sentAt
      = RecordHeartbeat s deviceID sentAt := by
  funext x
  by_cases hx : x = deviceID
  · subst hx
    rw [recordHeartbeat_self, recordHeartbeat_self,
      getOrCreateDevice_some _ _ _ (recordHeartbeat_self s x sentAt),
      addHeartbeat_idem]
  · rw [recordHeartbeat_other _ _ _ _ hx]

/-- N-fold repetition of `RecordHeartbeat` at a fixed ID and timestamp. -/
def recordHeartbeatIter (deviceID : String) (sentAt : Int) : ℕ → Store → Store
  | 0, s => s
  | n + 1, s => RecordHeartbeat (recordHeartbeatIter deviceID sentAt n s) deviceID sentAt

/-- C4: `RecordHeartbeat` is idempotent — recording the same timestamp
for a device N times (N ≥ 1) yields exactly the same store, hence the
same distinct-heartbeat count and the same first/last bounds, as
recording it once; duplicates never inflate the count. -/
theorem C4_recordHeartbeat_idempotent (s : Store) (deviceID : String)
    (sentAt : Int) (n : ℕ) (hn : 1 ≤ n) :
    recordHeartbeatIter deviceID sentAt n s = RecordHeartbeat s deviceID sentAt := by
  induction n with
  | zero => omega
  | succ k ih =>
    rcases Nat.eq_zero_or_pos k with hk | hk
    · subst hk
      rfl
    · rw [recordHeartbeatIter, ih hk, recordHeartbeat_idem]

/-- Witness for C4: three repetitions at a concrete timestamp equal a
single recording. -/
theorem C4_recordHeartbeat_idempotent_witness :
    recordHeartbeatIter "cam-1" 60000000000 3 NewStore
      = RecordHeartbeat NewStore "cam-1" 60000000000 :=
  C4_recordHeartbeat_idempotent NewStore "cam-1" 60000000000 3 (by decide)

/-- Fold of a sequence of heartbeat recordings for one device. -/
def recordHeartbeats (s : Store) (deviceID : String) (ts : List Int) : Store :=
  ts.foldl (fun acc t => RecordHeartbeat acc deviceID t) s

/-- The run falsifying the unrestricted bounds claim: heartbeats at the
zero instant (Go's zero `time.Time`, produced for example by an omitted
`sent_at` JSON field) and one nanosecond later, in that order. -/
def cexStore : Store := recordHeartbeats NewStore "cam-1" [0, 1]

/-- The heartbeat set a device accumulates. -/
theorem addHeartbeat_heartbeats (d : DeviceData) (sentAt : Int) :
    (addHeartbeat d sentAt).Heartbeats = insert sentAt d.Heartbeats := by
  unfold addHeartbeat
  dsimp only
  split_ifs <;> rfl

/-- Heartbeat recording leaves the upload slice alone. -/
theorem addHeartbeat_uploads (d : DeviceData) (sentAt : Int) :
    (addHeartbeat d sentAt).UploadTimes = d.UploadTimes := by
  unfold addHeartbeat
  dsimp only
  split_ifs <;> rfl

/-- Invariant of a device record built from nonzero heartbeats: both
stored bounds belong to the heartbeat set and bound it, and the zero
sentinel instant is not in the set. -/
def BoundsInv (d : DeviceData) : Prop :=
  d.FirstHeartbeat ∈ d.Heartbeats ∧ d.LastHeartbeat ∈ d.Heartbeats ∧
    (∀ x ∈ d.Heartbeats, d.FirstHeartbeat ≤ x ∧ x ≤ d.LastHeartbeat) ∧
    (0 : Int) ∉ d.Heartbeats

/-- Adding a nonzero heartbeat preserves the bounds invariant: with
nonzero bounds the `IsZero` tests are inert and each bound moves only
when the new timestamp lies outside it. -/
theorem addHeartbeat_inv (d : DeviceData) (t : Int) (ht : t ≠ 0)
    (h : BoundsInv d) : BoundsInv (addHeartbeat d t) := by
  obtain ⟨hF, hL, hbd, h0⟩ := h
  have hFL : d.FirstHeartbeat ≤ d.LastHeartbeat := (hbd d.FirstHeartbeat hF).2
  have hFne : d.FirstHeartbeat ≠ 0 := fun h' => h0 (h' ▸ hF)
  have hLne : d.LastHeartbeat ≠ 0 := fun h' => h0 (h' ▸ hL)
  have h0' : (0 : Int) ∉ insert t d.Heartbeats := by
    rw [Finset.mem_insert]
    push_neg
    exact ⟨fun h' => ht h'.symm, h0⟩
  unfold addHeartbeat BoundsInv
  dsimp only
  split_ifs with h1 h2 h2 <;> dsimp only
  · have h1' : t < d.FirstHeartbeat := h1.resolve_left hFne
    have h2' : d.LastHeartbeat < t := h2.resolve_left hLne
    exact absurd hFL (by omega)
  · have h1' : t < d.FirstHeartbeat := h1.resolve_left hFne
    push_neg at h2
    refine ⟨Finset.mem_insert_self _ _, Finset.mem_insert_of_mem hL, ?_, h0'⟩
    intro x hx
    rcases Finset.mem_insert.mp hx with rfl | hx
    · exact ⟨le_refl x, h2.2⟩
    · have := hbd x hx
      exact ⟨by omega, this.2⟩
  · push_neg at h1
    have h2' : d.LastHeartbeat < t := h2.resolve_left hLne
    refine ⟨Finset.mem_insert_of_mem hF, Finset.mem_insert_self _ _, ?_, h0'⟩
    intro x hx
    rcases Finset.mem_insert.mp hx with rfl | hx
    · exact ⟨h1.2, le_refl x⟩
    · have := hbd x hx
      exact ⟨this.1, by omega⟩
  · push_neg at h1 h2
    refine ⟨Finset.mem_insert_of_mem hF, Finset.mem_insert_of_mem hL, ?_, h0'⟩
    intro x hx
    rcases Finset.mem_insert.mp hx with rfl | hx
    · exact ⟨h1.2, h2.2⟩
    · exact hbd x hx

/-- The first heartbeat of a fresh record initialises both bounds. -/
theorem addHeartbeat_empty (t : Int) :
    addHeartbeat emptyDevice t
      = { Heartbeats := {t}, UploadTimes := [],
          FirstHeartbeat := t, LastHeartbeat := t } := by
  unfold addHeartbeat emptyDevice
  dsimp only
  rw [if_pos (Or.inl rfl), if_pos (Or.inl rfl)]
  rfl

/-- A one-heartbeat record at a nonzero instant satisfies the bounds
invariant. -/
theorem boundsInv_single (t : Int) (ht : t ≠ 0) :
    BoundsInv { Heartbeats := {t}, UploadTimes := [],
                FirstHeartbeat := t, LastHeartbeat := t } := by
  refine ⟨Finset.mem_singleton_self t, Finset.mem_singleton_self t, ?_, ?_⟩
  · intro x hx
    rw [Finset.mem_singleton] at hx
    subst hx
    exact ⟨le_refl _, le_refl _⟩
  · rw [Finset.mem_singleton]
    exact fun h' => ht h'.symm

/-- Folding nonzero heartbeat recordings over a device that satisfies
the bounds invariant accumulates exactly the recorded timestamps and
keeps the invariant. -/
theorem recordHeartbeats_inv (deviceID : String) (ts : List Int) :
    ∀ (s : Store) (d : DeviceData), s deviceID = some d → BoundsInv d →
      (∀ t ∈ ts, t ≠ 0) →
      ∃ d', recordHeartbeats s deviceID ts deviceID = some d' ∧
        d'.Heartbeats = d.Heartbeats ∪ ts.toFinset ∧ BoundsInv d' := by
  induction ts with
  | nil =>
    intro s d hs hinv _
    exact ⟨d, hs, by simp, hinv⟩
  | cons t ts ih =>
    intro s d hs hinv hts
    have ht : t ≠ 0 := hts t (by simp)
    have h1 : RecordHeartbeat s deviceID t deviceID = some (addHeartbeat d t) := by
      rw [recordHeartbeat_self, getOrCreateDevice_some s deviceID d hs]
    obtain ⟨d', hd', hset, hinv'⟩ :=
      ih (RecordHeartbeat s deviceID t) (addHeartbeat d t) h1
        (addHeartbeat_inv d t ht hinv) (fun x hx => hts x (by simp [hx]))
    refine ⟨d', hd', ?_, hinv'⟩
    rw [hset, addHeartbeat_heartbeats]
    simp [Finset.insert_union, Finset.union_insert]

/-- C5 as stated is false on the code: after recording heartbeats at
instants 0 and 1 (in that order) for a fresh device, the minimum
recorded timestamp 0 is still in the heartbeat set, yet the stored
`FirstHeartbeat` is 1 — the `IsZero` sentinel test mistakes a stored
genuine zero-instant bound for "unset" and re-initialises the bound to
the newly arrived, larger timestamp. -/
theorem C5_counterexample :
    (cexStore "cam-1").isSome = true ∧
    ((cexStore "cam-1").getD emptyDevice).FirstHeartbeat = 1 ∧
    (0 : Int) ∈ ((cexStore "cam-1").getD emptyDevice).Heartbeats := by
  refine ⟨by decide, by decide, by decide⟩

/-- C5 amended: provided no recorded timestamp equals the zero instant
(the code's sentinel for an unset bound), after any nonempty sequence of
heartbeat recordings for a fresh device the stored `FirstHeartbeat` and
`LastHeartbeat` are respectively the minimum and maximum of the recorded
timestamps (they belong to the recorded set and bound it), hence
`FirstHeartbeat ≤ LastHeartbeat`; and — unconditionally — the distinct
heartbeat count never decreases across any store write. -/
theorem C5_heartbeat_bounds (s : Store) (deviceID : String) (ts : List Int)
    (hfresh : s deviceID = none) (hne : ts ≠ []) (h0 : ∀ t ∈ ts, t ≠ 0) :
    (∃ d, recordHeartbeats s deviceID ts deviceID = some d ∧
      d.Heartbeats = ts.toFinset ∧
      d.FirstHeartbeat ∈ d.Heartbeats ∧
      d.LastHeartbeat ∈ d.Heartbeats ∧
      (∀ x ∈ d.Heartbeats, d.FirstHeartbeat ≤ x ∧ x ≤ d.LastHeartbeat) ∧
      d.FirstHeartbeat ≤ d.LastHeartbeat) ∧
    (∀ (s' : Store) (id' : String) (t : Int) (d₁ : DeviceData),
      s' id' = some d₁ →
      ∃ d₂, RecordHeartbeat s' id' t id' = some d₂ ∧
        d₁.Heartbeats.card ≤ d₂.Heartbeats.card) ∧
    (∀ (s' : Store) (id' : String) (t v : Int) (d₁ : DeviceData),
      s' id' = some d₁ →
      ∃ d₂, RecordUpload s' id' t v id' = some d₂ ∧
        d₁.Heartbeats.card ≤ d₂.Heartbeats.card) := by
  refine ⟨?_, ?_, ?_⟩
  · match ts, hne with
    | t :: ts, _ =>
      have ht : t ≠ 0 := h0 t (by simp)
      have h1 : RecordHeartbeat s deviceID t deviceID
          = some (addHeartbeat emptyDevice t) := by
        rw [recordHeartbeat_self, getOrCreateDevice_none s deviceID hfresh]
      rw [addHeartbeat_empty] at h1
      obtain ⟨d', hd', hset, hF, hL, hbd, _⟩ :=
        recordHeartbeats_inv deviceID ts (RecordHeartbeat s deviceID t) _ h1
          (boundsInv_single t ht) (fun x hx => h0 x (by simp [hx]))
      have hset' : d'.Heartbeats = (t :: ts).toFinset := by
        rw [hset]
        simp only [List.toFinset_cons, Finset.insert_eq]
      exact ⟨d', hd', hset', hF, hL, hbd, (hbd _ hF).2⟩
  · intro s' id' t d₁ h₁
    refine ⟨addHeartbeat d₁ t, ?_, ?_⟩
    · rw [recordHeartbeat_self, getOrCreateDevice_some s' id' d₁ h₁]
    · rw [addHeartbeat_heartbeats]
      exact Finset.card_le_card (Finset.subset_insert t d₁.Heartbeats)
  · intro s' id' t v d₁ h₁
    refine ⟨addUpload d₁ v, ?_, le_refl _⟩
    rw [recordUpload_self, getOrCreateDevice_some s' id' d₁ h₁]

/-- Witness for the amended C5 at the concrete out-of-order run
recording two and then one minute after the epoch. -/
theorem C5_heartbeat_bounds_witness :
    (∃ d, recordHeartbeats NewStore "cam-1" [120000000000, 60000000000] "cam-1" = some d ∧
      d.Heartbeats = ([120000000000, 60000000000] : List Int).toFinset ∧
      d.FirstHeartbeat ∈ d.Heartbeats ∧
      d.LastHeartbeat ∈ d.Heartbeats ∧
      (∀ x ∈ d.Heartbeats, d.FirstHeartbeat ≤ x ∧ x ≤ d.LastHeartbeat) ∧
      d.FirstHeartbeat ≤ d.LastHeartbeat) ∧
    (∀ (s' : Store) (id' : String) (t : Int) (d₁ : DeviceData),
      s' id' = some d₁ →
      ∃ d₂, RecordHeartbeat s' id' t id' = some d₂ ∧
        d₁.Heartbeats.card ≤ d₂.Heartbeats.card) ∧
    (∀ (s' : Store) (id' : String) (t v : Int) (d₁ : DeviceData),
      s' id' = some d₁ →
      ∃ d₂, RecordUpload s' id' t v id' = some d₂ ∧
        d₁.Heartbeats.card ≤ d₂.Heartbeats.card) :=
  C5_heartbeat_bounds NewStore "cam-1" [120000000000, 60000000000] rfl
    (by decide) (by decide)

/-- C6: at most one device record ever exists per ID — the
lookup-or-create step returns the existing record with the directory
unchanged, registration is idempotent and never resets existing data,
and both writes extend rather than replace the record: a heartbeat
write keeps every stored heartbeat and leaves the uploads alone, an
upload write leaves the heartbeat set alone and appends to the stored
uploads. -/
theorem C6_single_instance (s : Store) (deviceID : String) (d : DeviceData)
    (hs : s deviceID = some d) :
    getOrCreateDevice s deviceID = (d, s) ∧
    RegisterDevice s deviceID = s ∧
    (∀ s' : Store, RegisterDevice (RegisterDevice s' deviceID) deviceID
      = RegisterDevice s' deviceID) ∧
    (∀ sentAt, RecordHeartbeat s deviceID sentAt deviceID
        = some (addHeartbeat d sentAt) ∧
      d.Heartbeats ⊆ (addHeartbeat d sentAt).Heartbeats ∧
      (addHeartbeat d sentAt).UploadTimes = d.UploadTimes) ∧
    (∀ sentAt uploadTime, RecordUpload s deviceID sentAt uploadTime deviceID
        = some (addUpload d uploadTime) ∧
      (addUpload d uploadTime).Heartbeats = d.Heartbeats ∧
      (addUpload d uploadTime).UploadTimes = d.UploadTimes ++ [uploadTime]) := by
  refine ⟨getOrCreateDevice_some s deviceID d hs, ?_, ?_, ?_, ?_⟩
  · unfold RegisterDevice
    rw [getOrCreateDevice_some s deviceID d hs]
  · intro s'
    unfold RegisterDevice
    cases h₀ : s' deviceID with
    | some d₀ =>
      rw [getOrCreateDevice_some _ _ _ h₀, getOrCreateDevice_some _ _ _ h₀]
    | none =>
      rw [getOrCreateDevice_none _ _ h₀]
      dsimp only
      rw [getOrCreateDevice_some _ _ _ (updateStore_self s' deviceID emptyDevice)]
  · intro sentAt
    refine ⟨?_, ?_, addHeartbeat_uploads d sentAt⟩
    · rw [recordHeartbeat_self, getOrCreateDevice_some s deviceID d hs]
    · rw [addHeartbeat_heartbeats]
      exact Finset.subset_insert sentAt d.Heartbeats
  · intro sentAt uploadTime
    refine ⟨?_, rfl, rfl⟩
    rw [recordUpload_self, getOrCreateDevice_some s deviceID d hs]

/-- Witness for C6 at the concrete sample store. -/
theorem C6_single_instance_witness :
    getOrCreateDevice sampleStore "cam-1" = (sampleDev, sampleStore) ∧
    RegisterDevice sampleStore "cam-1" = sampleStore ∧
    (∀ s' : Store, RegisterDevice (RegisterDevice s' "cam-1") "cam-1"
      = RegisterDevice s' "cam-1") ∧
    (∀ sentAt, RecordHeartbeat sampleStore "cam-1" sentAt "cam-1"
        = some (addHeartbeat sampleDev sentAt) ∧
      sampleDev.Heartbeats ⊆ (addHeartbeat sampleDev sentAt).Heartbeats ∧
      (addHeartbeat sampleDev sentAt).UploadTimes = sampleDev.UploadTimes) ∧
    (∀ sentAt uploadTime, RecordUpload sampleStore "cam-1" sentAt uploadTime "cam-1"
        = some (addUpload sampleDev uploadTime) ∧
      (addUpload sampleDev uploadTime).Heartbeats = sampleDev.Heartbeats ∧
      (addUpload sampleDev uploadTime).UploadTimes
        = sampleDev.UploadTimes ++ [uploadTime]) :=
  C6_single_instance sampleStore "cam-1" sampleDev (by decide)

/-- One write request addressed to a device: a heartbeat carrying a
timestamp, or an upload carrying a timestamp and a duration value. -/
inductive WriteOp where
  | hb (sentAt : Int)
  | up (sentAt : Int) (uploadTime : Int)

/-- Apply one write to the store. -/
def applyOp (s : Store) (deviceID : String) : WriteOp → Store
  | .hb sentAt => RecordHeartbeat s deviceID sentAt
  | .up sentAt uploadTime => RecordUpload s deviceID sentAt uploadTime

/-- Apply a sequence of writes: one interleaving of the concurrent
calls, each call being atomic under the per-device lock. -/
def applyOps (s : Store) (deviceID : String) (ops : List WriteOp) : Store :=
  ops.foldl (fun acc op => applyOp acc deviceID op) s

/-- The heartbeat timestamps issued by a batch of writes. -/
def hbTimes : List WriteOp → List Int
  | [] => []
  | .hb sentAt :: ops => sentAt :: hbTimes ops
  | .up _ _ :: ops => hbTimes ops

/-- The number of upload calls issued by a batch of writes. -/
def upCount : List WriteOp → ℕ
  | [] => 0
  | .hb _ :: ops => upCount ops
  | .up _ _ :: ops => upCount ops + 1

/-- Applying any interleaving of writes to a present device
accumulates exactly the issued heartbeat timestamps into the set and
one upload entry per upload call, whatever the order. -/
theorem applyOps_some (deviceID : String) (ops : List WriteOp) :
    ∀ (s : Store) (d : DeviceData), s deviceID = some d →
      ∃ d', applyOps s deviceID ops deviceID = some d' ∧
        d'.Heartbeats = d.Heartbeats ∪ (hbTimes ops).toFinset ∧
        d'.UploadTimes.length = d.UploadTimes.length + upCount ops := by
  induction ops with
  | nil =>
    intro s d hs
    exact ⟨d, hs, by simp [hbTimes], by simp [upCount]⟩
  | cons op ops ih =>
    intro s d hs
    cases op with
    | hb sentAt =>
      have h1 : RecordHeartbeat s deviceID sentAt deviceID
          = some (addHeartbeat d sentAt) := by
        rw [recordHeartbeat_self, getOrCreateDevice_some _ _ _ hs]
      obtain ⟨d', hd', hset, hlen⟩ := ih _ _ h1
      refine ⟨d', hd', ?_, ?_⟩
      · rw [hset, addHeartbeat_heartbeats]
        simp [hbTimes, Finset.insert_union, Finset.union_insert]
      · rw [hlen, addHeartbeat_uploads]
        simp [upCount]
    | up sentAt uploadTime =>
      have h1 : RecordUpload s deviceID sentAt uploadTime deviceID
          = some (addUpload d uploadTime) := by
        rw [recordUpload_self, getOrCreateDevice_some _ _ _ hs]
      obtain ⟨d', hd', hset, hlen⟩ := ih _ _ h1
      refine ⟨d', hd', ?_, ?_⟩
      · rw [hset]
        simp [hbTimes, addUpload]
      · rw [hlen]
        simp [upCount, addUpload]
        omega

/-- The first write to an absent device behaves as if the zero-valued
record had already been stored (this is what `LoadOrStore` does). -/
theorem applyOp_fresh (s : Store) (deviceID : String) (hfresh : s deviceID = none)
    (op : WriteOp) :
    applyOp s deviceID op
      = applyOp (updateStore s deviceID emptyDevice) deviceID op := by
  cases op with
  | hb sentAt =>
    show RecordHeartbeat s deviceID sentAt
      = RecordHeartbeat (updateStore s deviceID emptyDevice) deviceID sentAt
    unfold RecordHeartbeat
    rw [getOrCreateDevice_none _ _ hfresh,
      getOrCreateDevice_some _ _ _ (updateStore_self s deviceID emptyDevice)]
  | up sentAt uploadTime =>
    show RecordUpload s deviceID sentAt uploadTime
      = RecordUpload (updateStore s deviceID emptyDevice) deviceID sentAt uploadTime
    unfold RecordUpload
    rw [getOrCreateDevice_none _ _ hfresh,
      getOrCreateDevice_some _ _ _ (updateStore_self s deviceID emptyDevice)]

/-- C7: under any interleaving of concurrent heartbeat and upload
writes addressed to one initially-absent device — each call being
atomic under the per-device lock, so a concurrent execution is exactly
an arbitrary arrival order — no write is lost: the final heartbeat set
is the set of issued timestamps whatever the order (so the final
distinct-heartbeat count equals the number of distinct timestamps
issued), the final upload count equals the number of upload calls
issued, and the stats read that follows succeeds whenever at least one
heartbeat was issued. -/
theorem C7_concurrent_writes (s : Store) (deviceID : String) (ops : List WriteOp)
    (hfresh : s deviceID = none) (hne : ops ≠ []) :
    ∃ d', applyOps s deviceID ops deviceID = some d' ∧
      d'.Heartbeats = (hbTimes ops).toFinset ∧
      d'.Heartbeats.card = (hbTimes ops).dedup.length ∧
      d'.UploadTimes.length = upCount ops ∧
      (hbTimes ops ≠ [] →
        ∃ r, GetStats (applyOps s deviceID ops) deviceID = .ok r) := by
  match ops, hne with
  | op :: ops', _ =>
    have hstep : applyOps s deviceID (op :: ops')
        = applyOps (updateStore s deviceID emptyDevice) deviceID (op :: ops') := by
      unfold applyOps
      rw [List.foldl_cons, List.foldl_cons, ← applyOp_fresh s deviceID hfresh op]
    obtain ⟨d', hd', hset, hlen⟩ :=
      applyOps_some deviceID (op :: ops') (updateStore s deviceID emptyDevice)
        emptyDevice (updateStore_self s deviceID emptyDevice)
    rw [← hstep] at hd'
    have hset' : d'.Heartbeats = (hbTimes (op :: ops')).toFinset := by
      rw [hset]
      show ∅ ∪ (hbTimes (op :: ops')).toFinset = (hbTimes (op :: ops')).toFinset
      exact Finset.empty_union _
    refine ⟨d', hd', hset', ?_, by simpa [emptyDevice] using hlen, ?_⟩
    · rw [hset']
      exact List.card_toFinset _
    · intro hhb
      have hcard : d'.Heartbeats.card ≠ 0 := by
        match h : hbTimes (op :: ops'), hhb with
        | t :: rest, _ =>
          apply Finset.card_ne_zero_of_mem (a := t)
          rw [hset', h]
          simp
      exact ⟨_, getStats_some _ _ d' hd' hcard⟩

/-- Witness for C7: a concrete interleaving of three heartbeat writes
(one timestamp repeated) and two upload writes. -/
theorem C7_concurrent_writes_witness :
    ∃ d', applyOps NewStore "cam-1"
        [.hb 60000000000, .up 0 5000000000, .hb 120000000000,
         .hb 60000000000, .up 0 7000000000] "cam-1" = some d' ∧
      d'.Heartbeats = (hbTimes
        [.hb 60000000000, .up 0 5000000000, .hb 120000000000,
         .hb 60000000000, .up 0 7000000000]).toFinset ∧
      d'.Heartbeats.card = (hbTimes
        [.hb 60000000000, .up 0 5000000000, .hb 120000000000,
         .hb 60000000000, .up 0 7000000000]).dedup.length ∧
      d'.UploadTimes.length = upCount
        [.hb 60000000000, .up 0 5000000000, .hb 120000000000,
         .hb 60000000000, .up 0 7000000000] ∧
      (hbTimes
        [.hb 60000000000, .up 0 5000000000, .hb 120000000000,
         .hb 60000000000, .up 0 7000000000] ≠ [] →
        ∃ r, GetStats (applyOps NewStore "cam-1"
          [.hb 60000000000, .up 0 5000000000, .hb 120000000000,
           .hb 60000000000, .up 0 7000000000]) "cam-1" = .ok r) :=
  C7_concurrent_writes NewStore "cam-1"
    [.hb 60000000000, .up 0 5000000000, .hb 120000000000,
     .hb 60000000000, .up 0 7000000000] rfl (by simp)

/-- C8: the timestamp argument of `RecordUpload` is dead code — any
two timestamps yield the very same store, and hence the same `GetStats`
result at every ID; only the duration value is recorded, so the average
never depends on upload timestamps. -/
theorem C8_upload_timestamp_irrelevant (s : Store) (deviceID : String)
    (t₁ t₂ uploadTime : Int) :
    RecordUpload s deviceID t₁ uploadTime = RecordUpload s deviceID t₂ uploadTime ∧
    (∀ x, GetStats (RecordUpload s deviceID t₁ uploadTime) x
      = GetStats (RecordUpload s deviceID t₂ uploadTime) x) :=
  ⟨rfl, fun _ => rfl⟩

/-- Witness for C8 at concrete timestamps zero and one hour apart. -/
theorem C8_upload_timestamp_irrelevant_witness :
    RecordUpload sampleStore "cam-1" 0 5000000000
      = RecordUpload sampleStore "cam-1" 3600000000000 5000000000 ∧
    (∀ x, GetStats (RecordUpload sampleStore "cam-1" 0 5000000000) x
      = GetStats (RecordUpload sampleStore "cam-1" 3600000000000 5000000000) x) :=
  C8_upload_timestamp_irrelevant sampleStore "cam-1" 0 3600000000000 5000000000

/-- After `GetStats` the directory is the input directory. -/
theorem getStatsSt_snd (s : Store) (deviceID : String) :
    (GetStatsSt s deviceID).2 = s := by
  unfold GetStatsSt
  cases s deviceID with
  | none => rfl
  | some d =>
    dsimp only
    split <;> rfl

/-- C9: every store operation addressed to device A — heartbeat write,
upload write or stats read — leaves the record of any other device B
(heartbeat set, upload sequence and bounds included) exactly as it
was. -/
theorem C9_cross_device_frame (s : Store) (a b : String) (hab : b ≠ a)
    (sentAt uploadTime : Int) :
    RecordHeartbeat s a sentAt b = s b ∧
    RecordUpload s a sentAt uploadTime b = s b ∧
    (GetStatsSt s a).2 b = s b := by
  refine ⟨recordHeartbeat_other s a b sentAt hab,
    recordUpload_other s a b sentAt uploadTime hab, ?_⟩
  rw [getStatsSt_snd]

/-- Witness for C9 with two concrete distinct device IDs. -/
theorem C9_cross_device_frame_witness :
    RecordHeartbeat sampleStore "cam-1" 60000000000 "cam-2" = sampleStore "cam-2" ∧
    RecordUpload sampleStore "cam-1" 60000000000 5000000000 "cam-2"
      = sampleStore "cam-2" ∧
    (GetStatsSt sampleStore "cam-1").2 "cam-2" = sampleStore "cam-2" :=
  C9_cross_device_frame sampleStore "cam-1" "cam-2" (by decide) 60000000000 5000000000

/-- The store after N repeated `GetStats` calls for one ID. -/
def getStatsIter (deviceID : String) : ℕ → Store → Store
  | 0, s => s
  | n + 1, s => (GetStatsSt (getStatsIter deviceID n s) deviceID).2

/-- C10: `GetStats` never mutates the store — the directory after the
call (and after any number of repeated calls) is the input directory,
so unlike the record operations it never lazily creates a record for an
unknown ID; repeated calls with no intervening writes return equal
results, and an ID that was never written keeps failing with the
device-not-found error no matter how many stats reads precede the
lookup. -/
theorem C10_getStats_no_mutation (s : Store) (deviceID : String) :
    (GetStatsSt s deviceID).2 = s ∧
    (∀ n, getStatsIter deviceID n s = s) ∧
    (∀ n x, GetStats (getStatsIter deviceID n s) x = GetStats s x) ∧
    (s deviceID = none →
      ∀ n, GetStats (getStatsIter deviceID n s) deviceID = .error .deviceNotFound) := by
  have hiter : ∀ n, getStatsIter deviceID n s = s := by
    intro n
    induction n with
    | zero => rfl
    | succ k ih =>
      show (GetStatsSt (getStatsIter deviceID k s) deviceID).2 = s
      rw [ih, getStatsSt_snd]
  refine ⟨getStatsSt_snd s deviceID, hiter, ?_, ?_⟩
  · intro n x
    rw [hiter n]
  · intro hfresh n
    rw [hiter n]
    unfold GetStats GetStatsSt
    rw [hfresh]

/-- Witness for C10: three stats reads of an ID absent from the sample
store change nothing and keep failing with device-not-found. -/
theorem C10_getStats_no_mutation_witness :
    (GetStatsSt sampleStore "cam-9").2 = sampleStore ∧
    (∀ n, getStatsIter "cam-9" n sampleStore = sampleStore) ∧
    (∀ n x, GetStats (getStatsIter "cam-9" n sampleStore) x = GetStats sampleStore x) ∧
    (sampleStore "cam-9" = none →
      ∀ n, GetStats (getStatsIter "cam-9" n sampleStore) "cam-9"
        = .error .deviceNotFound) :=
  C10_getStats_no_mutation sampleStore "cam-9"

end FleetMetrics
